import Mathlib

/-!
Verification of the booking time-resolution engine of this repository
(`app/lib/time_utils.py` and `app/lib/calcom_tools.py`).

The timezone semantics of `pytz.timezone("America/New_York")` (used by the
source for every conversion) is embedded for the post-2007 US DST rule set:
DST starts at 2:00 local (EST) on the second Sunday of March and ends at
2:00 local (EDT) on the first Sunday of November; `localize` with its
default `is_dst=False` resolves both nonexistent (spring-forward gap) and
ambiguous (fall-back) local times to EST.  Dates are modelled as plain
naturals; absolute time arithmetic uses a day-count in the style of the
proleptic Gregorian civil-from-days algorithm.
-/

/-- Naive datetime value: the shallow embedding of Python `datetime`
(year, month, day, hour, minute, second; the code never uses sub-second
precision at the level the spec defines). -/
structure Dt where
  year : Nat
  month : Nat
  day : Nat
  hour : Nat
  minute : Nat
  second : Nat
deriving DecidableEq, Repr

def leapN (y : Nat) : Nat :=
  if (y % 4 = 0 ∧ y % 100 ≠ 0) ∨ y % 400 = 0 then 1 else 0

def daysInMonth (y m : Nat) : Nat :=
  if m = 2 then 28 + leapN y
  else if m = 4 ∨ m = 6 ∨ m = 9 ∨ m = 11 then 30
  else 31

def validDt (t : Dt) : Prop :=
  1 ≤ t.year ∧ 1 ≤ t.month ∧ t.month ≤ 12 ∧ 1 ≤ t.day ∧
  t.day ≤ daysInMonth t.year t.month ∧ t.hour < 24 ∧ t.minute < 60 ∧ t.second < 60

instance (t : Dt) : Decidable (validDt t) := by unfold validDt; infer_instance

def G (z : Nat) : Nat :=
  z / 400 * 146097 + z % 400 * 365 + z % 400 / 4 - z % 400 / 100

def doyMarch (m d : Nat) : Nat :=
  (153 * ((m + 9) % 12) + 2) / 5 + (d - 1)

def dayNumber (y m d : Nat) : Nat :=
  G (if m ≤ 2 then y - 1 else y) + doyMarch m d

def secsOf (t : Dt) : Nat :=
  dayNumber t.year t.month t.day * 86400 + t.hour * 3600 + t.minute * 60 + t.second

def dayOfYear (y m d : Nat) : Nat :=
  (match m with
   | 1 => 0
   | 2 => 31
   | 3 => 59 + leapN y
   | 4 => 90 + leapN y
   | 5 => 120 + leapN y
   | 6 => 151 + leapN y
   | 7 => 181 + leapN y
   | 8 => 212 + leapN y
   | 9 => 243 + leapN y
   | 10 => 273 + leapN y
   | _ => if m = 11 then 304 + leapN y else 334 + leapN y) + (d - 1)

theorem G_succ (y : Nat) (h : 1 ≤ y) : G y = G (y - 1) + 365 + leapN y := by
  unfold G leapN
  split <;> omega

theorem dayNumber_linear (y m d : Nat) (hy : 1 ≤ y) (hm1 : 1 ≤ m) (hm2 : m ≤ 12) :
    dayNumber y m d = dayNumber y 1 1 + dayOfYear y m d := by
  have hG := G_succ y hy
  unfold dayNumber doyMarch dayOfYear
  interval_cases m <;> simp_all <;> omega

def nextDay (t : Dt) : Dt :=
  if t.day < daysInMonth t.year t.month then { t with day := t.day + 1 }
  else if t.month < 12 then { t with month := t.month + 1, day := 1 }
  else { t with year := t.year + 1, month := 1, day := 1 }

def prevDay (t : Dt) : Dt :=
  if 1 < t.day then { t with day := t.day - 1 }
  else if 1 < t.month then { t with month := t.month - 1, day := daysInMonth t.year (t.month - 1) }
  else { t with year := t.year - 1, month := 12, day := 31 }

theorem leapN_cases (y : Nat) : leapN y = 0 ∨ leapN y = 1 := by
  unfold leapN; split <;> omega

theorem daysInMonth_twelve (y : Nat) : daysInMonth y 12 = 31 := by
  simp [daysInMonth]

theorem prevDay_nextDay (t : Dt) (h : validDt t) : prevDay (nextDay t) = t := by
  obtain ⟨hy, hm1, hm2, hd1, hd2, _⟩ := h
  obtain ⟨y, m, d, hh, mi, se⟩ := t
  simp only at hy hm1 hm2 hd1 hd2
  simp only [nextDay, prevDay]
  split_ifs with h1 h2 h3 h4 h5 h6 h7 <;> simp_all <;> try omega
  all_goals (have h12 : m = 12 := by omega)
  all_goals subst h12
  all_goals simp_all [daysInMonth_twelve]
  all_goals omega

theorem dayNumber_nextDay (t : Dt) (h : validDt t) :
    dayNumber (nextDay t).year (nextDay t).month (nextDay t).day
      = dayNumber t.year t.month t.day + 1 := by
  obtain ⟨hy, hm1, hm2, hd1, hd2, _⟩ := h
  obtain ⟨y, m, d, hh, mi, se⟩ := t
  simp only at hy hm1 hm2 hd1 hd2
  have hG := G_succ y hy
  have hL := leapN_cases y
  simp only [nextDay]
  split_ifs with h1 h2 <;> simp only
  · unfold dayNumber doyMarch
    omega
  · unfold daysInMonth at h1 hd2
    unfold dayNumber doyMarch
    interval_cases m <;> simp_all <;> omega
  · have h12 : m = 12 := by omega
    subst h12
    unfold dayNumber doyMarch
    simp only [daysInMonth_twelve] at h1 hd2
    norm_num
    omega

theorem daysInMonth_pos (y m : Nat) : 1 ≤ daysInMonth y m := by
  have hL := leapN_cases y
  unfold daysInMonth
  split_ifs <;> omega

theorem nextDay_validDt (t : Dt) (h : validDt t) : validDt (nextDay t) := by
  obtain ⟨hy, hm1, hm2, hd1, hd2, hhh, hmin, hs⟩ := h
  obtain ⟨y, m, d, hh, mi, se⟩ := t
  simp only at hy hm1 hm2 hd1 hd2 hhh hmin hs
  simp only [nextDay]
  split_ifs with h1 h2
  · refine ⟨hy, hm1, hm2, ?_, ?_, hhh, hmin, hs⟩
    · show 1 ≤ d + 1
      omega
    · show d + 1 ≤ daysInMonth y m
      omega
  · refine ⟨hy, ?_, ?_, ?_, ?_, hhh, hmin, hs⟩
    · show 1 ≤ m + 1
      omega
    · show m + 1 ≤ 12
      omega
    · show 1 ≤ 1
      omega
    · show 1 ≤ daysInMonth y (m + 1)
      exact daysInMonth_pos y (m + 1)
  · refine ⟨?_, ?_, ?_, ?_, ?_, hhh, hmin, hs⟩
    · show 1 ≤ y + 1
      omega
    · show (1 : Nat) ≤ 1
      omega
    · show (1 : Nat) ≤ 12
      omega
    · show (1 : Nat) ≤ 1
      omega
    · show 1 ≤ daysInMonth (y + 1) 1
      exact daysInMonth_pos (y + 1) 1

theorem nextDay_year (t : Dt) (h : validDt t) (hne : ¬(t.month = 12 ∧ t.day = 31)) :
    (nextDay t).year = t.year := by
  obtain ⟨hy, hm1, hm2, hd1, hd2, _⟩ := h
  obtain ⟨y, m, d, hh, mi, se⟩ := t
  simp only at hy hm1 hm2 hd1 hd2 hne
  simp only [nextDay]
  split_ifs with h1 h2
  · rfl
  · rfl
  · exfalso
    have h12 : m = 12 := by omega
    subst h12
    simp only [daysInMonth_twelve] at h1 hd2
    omega

def addHours (t : Dt) (k : Nat) : Dt :=
  if t.hour + k < 24 then { t with hour := t.hour + k }
  else { nextDay t with hour := t.hour + k - 24 }

def subHours (t : Dt) (k : Nat) : Dt :=
  if k ≤ t.hour then { t with hour := t.hour - k }
  else { prevDay t with hour := t.hour + 24 - k }

theorem prevDay_hour (x : Dt) (a : Nat) :
    prevDay { x with hour := a } = { prevDay x with hour := a } := by
  obtain ⟨y, m, d, hh, mi, se⟩ := x
  simp only [prevDay]
  split_ifs <;> rfl

theorem subHours_addHours (t : Dt) (h : validDt t) (k : Nat) (hk : k < 24) :
    subHours (addHours t k) k = t := by
  have hpn := prevDay_nextDay t h
  obtain ⟨hy, hm1, hm2, hd1, hd2, hhh, hmin, hs⟩ := h
  unfold addHours subHours
  by_cases h1 : t.hour + k < 24
  · rw [if_pos h1]
    rw [if_pos (show k ≤ t.hour + k by omega)]
    obtain ⟨y, m, d, hh, mi, se⟩ := t
    simp_all
  · rw [if_neg h1]
    rw [if_neg (show ¬ k ≤ t.hour + k - 24 by omega)]
    rw [prevDay_hour, hpn]
    obtain ⟨y, m, d, hh, mi, se⟩ := t
    simp only at hhh h1 ⊢
    simp only [Dt.mk.injEq, and_true, true_and]
    omega

theorem nextDay_time (t : Dt) :
    (nextDay t).hour = t.hour ∧ (nextDay t).minute = t.minute ∧ (nextDay t).second = t.second := by
  unfold nextDay
  split_ifs <;> exact ⟨rfl, rfl, rfl⟩

theorem secsOf_addHours (t : Dt) (h : validDt t) (k : Nat) :
    secsOf (addHours t k) = secsOf t + k * 3600 := by
  have hnd := dayNumber_nextDay t h
  have hhh := h.2.2.2.2.2.1
  unfold addHours
  by_cases h1 : t.hour + k < 24
  · rw [if_pos h1]
    show dayNumber t.year t.month t.day * 86400 + (t.hour + k) * 3600
      + t.minute * 60 + t.second = _
    unfold secsOf
    omega
  · rw [if_neg h1]
    show dayNumber (nextDay t).year (nextDay t).month (nextDay t).day * 86400
      + (t.hour + k - 24) * 3600 + (nextDay t).minute * 60 + (nextDay t).second = _
    rw [(nextDay_time t).2.1, (nextDay_time t).2.2]
    unfold secsOf
    omega

theorem addHours_year (t : Dt) (h : validDt t) (hne : ¬(t.month = 12 ∧ t.day = 31)) (k : Nat) :
    (addHours t k).year = t.year := by
  have := nextDay_year t h hne
  unfold addHours
  split_ifs <;> simp_all

def sakamotoTbl (m : Nat) : Nat :=
  match m with
  | 1 => 0 | 2 => 3 | 3 => 2 | 4 => 5 | 5 => 0 | 6 => 3
  | 7 => 5 | 8 => 1 | 9 => 4 | 10 => 6 | 11 => 2 | _ => 4

def dow (y m d : Nat) : Nat :=
  (let z := if m < 3 then y - 1 else y
   z + z / 4 - z / 100 + z / 400 + sakamotoTbl m + d) % 7

def ssMarch (y : Nat) : Nat := (7 - dow y 3 1) % 7 + 8

def fsNov (y : Nat) : Nat := (7 - dow y 11 1) % 7 + 1

theorem ssMarch_bounds (y : Nat) : 8 ≤ ssMarch y ∧ ssMarch y ≤ 14 := by
  unfold ssMarch
  omega

theorem fsNov_bounds (y : Nat) : 1 ≤ fsNov y ∧ fsNov y ≤ 7 := by
  unfold fsNov
  omega

def springForwardLocal (y : Nat) : Nat := secsOf ⟨y, 3, ssMarch y, 3, 0, 0⟩

def fallBackLocal (y : Nat) : Nat := secsOf ⟨y, 11, fsNov y, 1, 0, 0⟩

def springForwardUtc (y : Nat) : Nat := secsOf ⟨y, 3, ssMarch y, 7, 0, 0⟩

def fallBackUtc (y : Nat) : Nat := secsOf ⟨y, 11, fsNov y, 6, 0, 0⟩

def easternIsDstLocal (t : Dt) : Prop :=
  springForwardLocal t.year ≤ secsOf t ∧ secsOf t < fallBackLocal t.year

instance (t : Dt) : Decidable (easternIsDstLocal t) := by
  unfold easternIsDstLocal; infer_instance

def easternIsDstUtc (u : Dt) : Prop :=
  springForwardUtc u.year ≤ secsOf u ∧ secsOf u < fallBackUtc u.year

instance (u : Dt) : Decidable (easternIsDstUtc u) := by
  unfold easternIsDstUtc; infer_instance

def easternToUtcDt (t : Dt) : Dt := addHours t (if easternIsDstLocal t then 4 else 5)

def utcToEasternDt (u : Dt) : Dt := subHours u (if easternIsDstUtc u then 4 else 5)

def springGap (t : Dt) : Prop :=
  t.month = 3 ∧ t.day = ssMarch t.year ∧ t.hour = 2

instance (t : Dt) : Decidable (springGap t) := by
  unfold springGap; infer_instance

theorem secsOf_linear (t : Dt) (h : validDt t) :
    secsOf t = (dayNumber t.year 1 1 + dayOfYear t.year t.month t.day) * 86400
      + t.hour * 3600 + t.minute * 60 + t.second := by
  unfold secsOf
  rw [dayNumber_linear t.year t.month t.day h.1 h.2.1 h.2.2.1]

theorem dayOfYear_march (y s : Nat) (hs : 1 ≤ s) : dayOfYear y 3 s = 58 + leapN y + s := by
  have h : dayOfYear y 3 s = 59 + leapN y + (s - 1) := rfl
  omega

theorem dayOfYear_nov (y s : Nat) (hs : 1 ≤ s) : dayOfYear y 11 s = 303 + leapN y + s := by
  have h : dayOfYear y 11 s = 304 + leapN y + (s - 1) := rfl
  omega

theorem dayOfYear_eq_march (y m d s : Nat) (hm1 : 1 ≤ m) (hm2 : m ≤ 12) (hd1 : 1 ≤ d)
    (hd2 : d ≤ daysInMonth y m) (hs1 : 8 ≤ s) (hs2 : s ≤ 14)
    (he : dayOfYear y m d = dayOfYear y 3 s) : m = 3 ∧ d = s := by
  have hL := leapN_cases y
  unfold daysInMonth at hd2
  unfold dayOfYear at he
  interval_cases m <;> simp_all <;> omega

theorem daysInMonth_march (y : Nat) : daysInMonth y 3 = 31 := by
  simp [daysInMonth]

theorem daysInMonth_nov (y : Nat) : daysInMonth y 11 = 30 := by
  simp [daysInMonth]

theorem springForwardLocal_eq (y : Nat) (hy : 1 ≤ y) :
    springForwardLocal y = (dayNumber y 1 1 + (58 + leapN y + ssMarch y)) * 86400 + 10800 := by
  have hb := ssMarch_bounds y
  have hv : validDt ⟨y, 3, ssMarch y, 3, 0, 0⟩ := by
    refine ⟨hy, by norm_num, by norm_num, by show 1 ≤ ssMarch y; omega, ?_,
      by norm_num, by norm_num, by norm_num⟩
    show ssMarch y ≤ daysInMonth y 3
    rw [daysInMonth_march]
    omega
  unfold springForwardLocal
  rw [secsOf_linear _ hv]
  show (dayNumber y 1 1 + dayOfYear y 3 (ssMarch y)) * 86400 + 3 * 3600 + 0 * 60 + 0 = _
  rw [dayOfYear_march y (ssMarch y) (by omega)]

theorem springForwardUtc_eq (y : Nat) (hy : 1 ≤ y) :
    springForwardUtc y = (dayNumber y 1 1 + (58 + leapN y + ssMarch y)) * 86400 + 25200 := by
  have hb := ssMarch_bounds y
  have hv : validDt ⟨y, 3, ssMarch y, 7, 0, 0⟩ := by
    refine ⟨hy, by norm_num, by norm_num, by show 1 ≤ ssMarch y; omega, ?_,
      by norm_num, by norm_num, by norm_num⟩
    show ssMarch y ≤ daysInMonth y 3
    rw [daysInMonth_march]
    omega
  unfold springForwardUtc
  rw [secsOf_linear _ hv]
  show (dayNumber y 1 1 + dayOfYear y 3 (ssMarch y)) * 86400 + 7 * 3600 + 0 * 60 + 0 = _
  rw [dayOfYear_march y (ssMarch y) (by omega)]

theorem fallBackLocal_eq (y : Nat) (hy : 1 ≤ y) :
    fallBackLocal y = (dayNumber y 1 1 + (303 + leapN y + fsNov y)) * 86400 + 3600 := by
  have hb := fsNov_bounds y
  have hv : validDt ⟨y, 11, fsNov y, 1, 0, 0⟩ := by
    refine ⟨hy, by norm_num, by norm_num, by show 1 ≤ fsNov y; omega, ?_,
      by norm_num, by norm_num, by norm_num⟩
    show fsNov y ≤ daysInMonth y 11
    rw [daysInMonth_nov]
    omega
  unfold fallBackLocal
  rw [secsOf_linear _ hv]
  show (dayNumber y 1 1 + dayOfYear y 11 (fsNov y)) * 86400 + 1 * 3600 + 0 * 60 + 0 = _
  rw [dayOfYear_nov y (fsNov y) (by omega)]

theorem fallBackUtc_eq (y : Nat) (hy : 1 ≤ y) :
    fallBackUtc y = (dayNumber y 1 1 + (303 + leapN y + fsNov y)) * 86400 + 21600 := by
  have hb := fsNov_bounds y
  have hv : validDt ⟨y, 11, fsNov y, 6, 0, 0⟩ := by
    refine ⟨hy, by norm_num, by norm_num, by show 1 ≤ fsNov y; omega, ?_,
      by norm_num, by norm_num, by norm_num⟩
    show fsNov y ≤ daysInMonth y 11
    rw [daysInMonth_nov]
    omega
  unfold fallBackUtc
  rw [secsOf_linear _ hv]
  show (dayNumber y 1 1 + dayOfYear y 11 (fsNov y)) * 86400 + 6 * 3600 + 0 * 60 + 0 = _
  rw [dayOfYear_nov y (fsNov y) (by omega)]

theorem gap_window (t : Dt) (h : validDt t) (hg : ¬ springGap t)
    (hlt : secsOf t < springForwardLocal t.year) :
    secsOf t + 3600 < springForwardLocal t.year := by
  by_contra hc
  apply hg
  obtain ⟨hy, hm1, hm2, hd1, hd2, hhh, hmin, hs⟩ := h
  have hlin := secsOf_linear t ⟨hy, hm1, hm2, hd1, hd2, hhh, hmin, hs⟩
  have hsb := ssMarch_bounds t.year
  have hsl := springForwardLocal_eq t.year hy
  have hmv : dayOfYear t.year 3 (ssMarch t.year) = 58 + leapN t.year + ssMarch t.year :=
    dayOfYear_march t.year (ssMarch t.year) (by omega)
  have hdoy : dayOfYear t.year t.month t.day = dayOfYear t.year 3 (ssMarch t.year) := by
    omega
  have hhour : t.hour = 2 := by
    omega
  have := dayOfYear_eq_march t.year t.month t.day (ssMarch t.year)
    hm1 hm2 hd1 hd2 (by omega) (by omega) hdoy
  exact ⟨this.1, this.2, hhour⟩

theorem addHours_year_noCarry (t : Dt) (k : Nat) (h1 : t.hour + k < 24) :
    (addHours t k).year = t.year := by
  unfold addHours
  rw [if_pos h1]

theorem easternToUtc_dst (t : Dt) (h : validDt t) (hg : ¬ springGap t) :
    easternIsDstUtc (easternToUtcDt t) ↔ easternIsDstLocal t := by
  have hvd := h
  obtain ⟨hy, hm1, hm2, hd1, hd2, hhh, hmin, hsc⟩ := h
  have hsfl := springForwardLocal_eq t.year hy
  have hsfu := springForwardUtc_eq t.year hy
  have hfbl := fallBackLocal_eq t.year hy
  have hfbu := fallBackUtc_eq t.year hy
  have hssb := ssMarch_bounds t.year
  have hfsb := fsNov_bounds t.year
  have hlin := secsOf_linear t hvd
  by_cases hdec : t.month = 12 ∧ t.day = 31
  · rw [hdec.1, hdec.2] at hlin
    have hdoy : dayOfYear t.year 12 31 = 334 + leapN t.year + 30 := rfl
    have hloc : ¬ easternIsDstLocal t := by
      unfold easternIsDstLocal
      omega
    unfold easternToUtcDt
    rw [if_neg hloc]
    refine iff_of_false ?_ hloc
    by_cases hcarry : t.hour + 5 < 24
    · have hyu := addHours_year_noCarry t 5 hcarry
      have hsu := secsOf_addHours t hvd 5
      unfold easternIsDstUtc
      rw [hyu, hsu]
      omega
    · have hnd : nextDay t = { t with year := t.year + 1, month := 1, day := 1 } := by
        unfold nextDay
        rw [if_neg (show ¬ t.day < daysInMonth t.year t.month by
              rw [hdec.1, hdec.2, daysInMonth_twelve]; omega),
            if_neg (show ¬ t.month < 12 by omega)]
      have hu : addHours t 5 = ⟨t.year + 1, 1, 1, t.hour + 5 - 24, t.minute, t.second⟩ := by
        unfold addHours
        rw [if_neg hcarry, hnd]
      rw [hu]
      unfold easternIsDstUtc
      have hse : secsOf (⟨t.year + 1, 1, 1, t.hour + 5 - 24, t.minute, t.second⟩ : Dt)
          = dayNumber (t.year + 1) 1 1 * 86400 + (t.hour + 5 - 24) * 3600
            + t.minute * 60 + t.second := rfl
      have hsfu2 := springForwardUtc_eq (t.year + 1) (by omega)
      have hssb2 := ssMarch_bounds (t.year + 1)
      show ¬ (springForwardUtc (t.year + 1)
          ≤ secsOf (⟨t.year + 1, 1, 1, t.hour + 5 - 24, t.minute, t.second⟩ : Dt)
        ∧ secsOf (⟨t.year + 1, 1, 1, t.hour + 5 - 24, t.minute, t.second⟩ : Dt)
          < fallBackUtc (t.year + 1))
      rw [hse]
      omega
  · have hyu4 := addHours_year t hvd hdec 4
    have hyu5 := addHours_year t hvd hdec 5
    have hsu4 := secsOf_addHours t hvd 4
    have hsu5 := secsOf_addHours t hvd 5
    unfold easternToUtcDt
    by_cases hd : easternIsDstLocal t
    · rw [if_pos hd]
      refine iff_of_true ?_ hd
      unfold easternIsDstLocal at hd
      unfold easternIsDstUtc
      rw [hyu4, hsu4]
      omega
    · rw [if_neg hd]
      refine iff_of_false ?_ hd
      unfold easternIsDstLocal at hd
      unfold easternIsDstUtc
      rw [hyu5, hsu5]
      by_cases hlt : secsOf t < springForwardLocal t.year
      · have hgw := gap_window t hvd hg hlt
        omega
      · omega

theorem eastern_roundtrip (t : Dt) (h : validDt t) (hg : ¬ springGap t) :
    utcToEasternDt (easternToUtcDt t) = t := by
  have hdst := easternToUtc_dst t h hg
  unfold utcToEasternDt
  by_cases hd : easternIsDstLocal t
  · rw [if_pos (hdst.mpr hd)]
    unfold easternToUtcDt
    rw [if_pos hd]
    exact subHours_addHours t h 4 (by omega)
  · rw [if_neg (fun hu => hd (hdst.mp hu))]
    unfold easternToUtcDt
    rw [if_neg hd]
    exact subHours_addHours t h 5 (by omega)


/-- Zero-padded two-digit decimal rendering, as Python strftime emits. -/
def pad2 (n : Nat) : String :=
  if n < 10 then "0" ++ toString n else toString n

/-- Zero-padded four-digit decimal rendering (strftime `%Y`). -/
def pad4 (n : Nat) : String :=
  if n < 10 then "000" ++ toString n
  else if n < 100 then "00" ++ toString n
  else if n < 1000 then "0" ++ toString n
  else toString n

/-- Serialization `dt_utc.strftime("%Y-%m-%dT%H:%M:%SZ")` used by
`convert_to_utc_iso` for its canonical UTC output. -/
def strftimeIsoZ (t : Dt) : String :=
  pad4 t.year ++ "-" ++ pad2 t.month ++ "-" ++ pad2 t.day ++ "T" ++
  pad2 t.hour ++ ":" ++ pad2 t.minute ++ ":" ++ pad2 t.second ++ "Z"

/-- Full month name (strftime `%B`). -/
def monthName (m : Nat) : String :=
  match m with
  | 1 => "January" | 2 => "February" | 3 => "March" | 4 => "April"
  | 5 => "May" | 6 => "June" | 7 => "July" | 8 => "August"
  | 9 => "September" | 10 => "October" | 11 => "November" | _ => "December"

/-- Full weekday name (strftime `%A`), indexed with 0 = Sunday as `dow` yields. -/
def weekdayName (w : Nat) : String :=
  match w with
  | 0 => "Sunday" | 1 => "Monday" | 2 => "Tuesday" | 3 => "Wednesday"
  | 4 => "Thursday" | 5 => "Friday" | _ => "Saturday"

/-- Twelve-hour clock value (strftime `%I` before padding). -/
def hour12 (h : Nat) : Nat := if h % 12 = 0 then 12 else h % 12

/-- Meridiem marker (strftime `%p`). -/
def ampm (h : Nat) : String := if h < 12 then "AM" else "PM"

/-- Embedding of `format_eastern_time` (time_utils.py lines 13-19) applied to
an Eastern local datetime: strftime `"%A, %B %d, %Y at %I:%M %p Eastern Time"`.
Note the rendering has minute precision: seconds are dropped. -/
def format_eastern_time (t : Dt) : String :=
  weekdayName (dow t.year t.month t.day) ++ ", " ++ monthName t.month ++ " "
    ++ pad2 t.day ++ ", " ++ pad4 t.year ++ " at " ++ pad2 (hour12 t.hour)
    ++ ":" ++ pad2 t.minute ++ " " ++ ampm t.hour ++ " Eastern Time"

/-- Characterwise ASCII lowercase, the effect of Python `str.lower()` on the
status strings this code compares. -/
def asciiLowerChar (c : Char) : Char :=
  if 65 <= c.toNat ∧ c.toNat <= 90 then Char.ofNat (c.toNat + 32) else c

/-- Model of `str.lower()`. -/
def asciiLower (s : String) : String :=
  ⟨s.data.map asciiLowerChar⟩

/-- Model of `str.strip()` (kernel-reducible, unlike `String.trim`). -/
def pyStrip (s : String) : String :=
  ⟨((s.data.dropWhile Char.isWhitespace).reverse.dropWhile Char.isWhitespace).reverse⟩

/-- Model of `str.endswith`. -/
def strEndsWith (s suffix : String) : Bool :=
  s.data.drop (s.data.length - suffix.data.length) == suffix.data

/-- Model of Python slicing away the last `n` characters. -/
def strDropRight (s : String) (n : Nat) : String :=
  ⟨s.data.take (s.data.length - n)⟩

/-- Model of `str.__contains__` for a single character. -/
def strContainsChar (s : String) (c : Char) : Bool :=
  s.data.contains c

/-- Model of `str.count` for a single character. -/
def strCountChar (s : String) (c : Char) : Nat :=
  s.data.count c

/-- Model of slicing the first `n` characters. -/
def strTake (s : String) (n : Nat) : String :=
  ⟨s.data.take n⟩

/-- Model of dropping the first `n` characters. -/
def strDrop (s : String) (n : Nat) : String :=
  ⟨s.data.drop n⟩

/-- Model of `str.replace('Z', '+00:00')`: the needle is one character, so the
replacement is characterwise. -/
def replaceZ (s : String) : String :=
  ⟨s.data.foldr (fun c acc => if c = 'Z' then '+' :: '0' :: '0' :: ':' :: '0' :: '0' :: acc else c :: acc) []⟩

/-- Split of a character list at every occurrence of `c` (model of
`str.split` with a one-character separator). -/
def splitOnChar (c : Char) : List Char → List (List Char)
  | [] => [[]]
  | x :: xs =>
    if x = c then [] :: splitOnChar c xs
    else
      match splitOnChar c xs with
      | [] => [[x]]
      | h :: t => (x :: h) :: t

/-- Model of `str.split` with a one-character separator. -/
def strSplitOnChar (s : String) (c : Char) : List String :=
  (splitOnChar c s.data).map (fun l => ⟨l⟩)

/-- Substring occurrence test over character lists. -/
def containsSub (p : List Char) : List Char → Bool
  | [] => p.isEmpty
  | x :: xs => p.isPrefixOf (x :: xs) || containsSub p xs

/-- Model of Python `sub in s`. -/
def strContainsSub (s sub : String) : Bool :=
  containsSub sub.data s.data

/-- Python exception surrogate: the rendered message plus whether the class
is ValueError (several tools catch ValueError separately). -/
structure PyErr where
  msg : String
  isValueError : Bool
deriving DecidableEq, Repr

/-- Accepted input formats of `convert_to_utc_iso` (lines 56-63), in source
order. -/
def acceptedFormats : List String :=
  ["%Y-%m-%d %H:%M:%S", "%Y-%m-%d %H:%M", "%Y-%m-%dT%H:%M:%S",
   "%Y-%m-%dT%H:%M", "%m/%d/%Y %H:%M", "%m/%d/%Y %I:%M %p",
   "%m/%d/%Y %I:%M:%S %p", "%B %d, %Y %I:%M %p",
   "%B %d, %Y %I:%M:%S %p", "%b %d, %Y %I:%M %p",
   "%b %d, %Y %I:%M:%S %p", "%Y-%m-%d %I:%M %p",
   "%Y-%m-%d %I:%M:%S %p"]

/-- First-success scan of the format list (the `for fmt in formats` loop with
its `break`), over an abstract `datetime.strptime`: `strptime fmt s = some dt`
models a successful parse, `none` a raised ValueError for that format. -/
def firstParse (strptime : String → String → Option Dt) (s : String) : Option Dt :=
  acceptedFormats.findSome? (fun fmt => strptime fmt s)

/-- Embedding of `convert_to_utc_iso` (time_utils.py lines 49-85): strip the
input, try the formats in order, raise ValueError naming the input when none
matches, otherwise localize the (always naive) result as Eastern, convert to
UTC and emit the canonical string.  The outer except clause logs and
re-raises, so the operation is fallible. -/
def convert_to_utc_iso (strptime : String → String → Option Dt) (s : String) :
    Except PyErr String :=
  match firstParse strptime (pyStrip s) with
  | none => .error ⟨"Could not parse time string: " ++ s, true⟩
  | some dt => .ok (strftimeIsoZ (easternToUtcDt dt))

/-- Datetime-level composition used by the resolution paths of the tools:
parse an Eastern local string, convert it to a UTC instant
(`convert_to_utc_iso` followed by `datetime.fromisoformat` of its output). -/
def parseEasternToUtcDt (strptime : String → String → Option Dt) (s : String) :
    Except PyErr Dt :=
  match firstParse strptime (pyStrip s) with
  | none => .error ⟨"Could not parse time string: " ++ s, true⟩
  | some dt => .ok (easternToUtcDt dt)

/-- Preprocessing of `convert_utc_to_eastern` (lines 26-30): the input
variable is reassigned before parsing when it ends in `Z`, or when it has no
`+` and at least three dashes. -/
def preprocessUtc (s : String) : String :=
  if strEndsWith s "Z" then strDropRight s 1 ++ "+00:00"
  else if strContainsChar s '+' = false ∧ 3 ≤ strCountChar s '-' then s ++ "+00:00"
  else s

/-- Embedding of `convert_utc_to_eastern` (time_utils.py lines 22-46) over an
abstract `datetime.fromisoformat`: `fromiso str = some u` models a successful
parse normalised to the UTC instant `u` (tz-aware values via
`astimezone(pytz.UTC)`, naive ones via `pytz.UTC.localize`); `none` models a
raised exception.  The except branch returns the current value of the input
variable, which is the preprocessed string, not necessarily the caller's
original. -/
def convert_utc_to_eastern (fromiso : String → Option Dt) (s : String) : String :=
  let s1 := preprocessUtc s
  match fromiso (replaceZ s1) with
  | some u => format_eastern_time (utcToEasternDt u)
  | none => s1

/-- All-digit string to number (helper for the `fromisoformat` model). -/
def digitsToNat (s : String) : Option Nat :=
  if s.data.length ≠ 0 ∧ s.data.all Char.isDigit then
    some (s.data.foldl (fun n c => n * 10 + (c.toNat - 48)) 0)
  else none

/-- Offset handling of the `fromisoformat` model: every string this module
feeds the parser is UTC, so only the zero offset (or no offset) is modelled;
any other offset marker yields a failed parse. -/
def stripZeroOffset (ts : String) : Option String :=
  if strEndsWith ts "+00:00" then some (strDropRight ts 6)
  else if strContainsChar ts '+' ∨ strContainsChar ts '-' then none
  else some ts

/-- Time-of-day part of the `fromisoformat` model: `HH:MM[:SS[.ffffff]]`,
fraction ignored at the second precision the spec defines. -/
def parseTimePart (ts : String) : Option (Nat × Nat × Nat) :=
  match strSplitOnChar ts ':' with
  | [hs, ms] =>
    match digitsToNat hs, digitsToNat ms with
    | some h, some mi =>
      if hs.data.length = 2 ∧ ms.data.length = 2 ∧ h < 24 ∧ mi < 60 then some (h, mi, 0)
      else none
    | _, _ => none
  | [hs, ms, ss] =>
    match strSplitOnChar ss '.' with
    | sec :: frac =>
      match digitsToNat hs, digitsToNat ms, digitsToNat sec with
      | some h, some mi, some sc =>
        if hs.data.length = 2 ∧ ms.data.length = 2 ∧ sec.data.length = 2
            ∧ h < 24 ∧ mi < 60 ∧ sc < 60
            ∧ (frac.all fun f => f.data.length ≠ 0 ∧ f.data.all Char.isDigit) ∧ frac.length ≤ 1
        then some (h, mi, sc) else none
      | _, _, _ => none
    | [] => none
  | _ => none

/-- Concrete model of the library call `datetime.fromisoformat` for the
shapes this repository produces: `YYYY-MM-DD[T| ]HH:MM[:SS[.ffffff]][+00:00]`
(date-only strings included).  The result is the parsed instant; malformed
strings yield `none`, the model of a raised ValueError.  This stands in for
the abstract parser parameter whenever a claim needs a closed evaluation. -/
def fromisoformat (s : String) : Option Dt :=
  if s.data.length < 10 then none
  else
    match strSplitOnChar (strTake s 10) '-' with
    | [ys, ms, ds] =>
      match digitsToNat ys, digitsToNat ms, digitsToNat ds with
      | some y, some m, some d =>
        if ys.data.length = 4 ∧ ms.data.length = 2 ∧ ds.data.length = 2 ∧ 1 ≤ y ∧ 1 ≤ m
            ∧ m ≤ 12 ∧ 1 ≤ d ∧ d ≤ daysInMonth y m then
          let rest := strDrop s 10
          if rest.data.length = 0 then some ⟨y, m, d, 0, 0, 0⟩
          else
            if strTake rest 1 = "T" ∨ strTake rest 1 = " " then
              match stripZeroOffset (strDrop rest 1) with
              | none => none
              | some tcore =>
                match parseTimePart tcore with
                | none => none
                | some (h, mi, sc) => some ⟨y, m, d, h, mi, sc⟩
            else none
        else none
      | _, _, _ => none
    | _ => none

/-- Appointment record, with the fields the tool layer reads: `uid`,
`status`, the UTC instant parsed from the booking's `start` string (`none`
models a missing/empty or unparsable start, both skipped by the matching
loop), and the display fields of `get_all_bookings`. -/
structure Booking where
  uid : String
  status : String
  start : Option Dt
  title : String
  eventTypeTitle : Option String
  attendeeName : Option String
deriving DecidableEq, Repr

/-- Minute distance
`abs((booking_hour*60+booking_minute) - (target_hour*60+target_minute))`
computed by the matching loops. -/
def deltaMinutes (b q : Dt) : Nat :=
  ((b.hour * 60 + b.minute : Int) - (q.hour * 60 + q.minute : Int)).natAbs

/-- Calendar date of a datetime (`datetime.date()`), the component compared
exactly by the matching loops. -/
def dateOf (t : Dt) : Nat × Nat × Nat := (t.year, t.month, t.day)

/-- Candidate filter of `cancel_booking` (calcom_tools.py lines 393-419) and
`reschedule_booking` (lines 287-312), whose loops are textually identical:
skip cancelled bookings, skip missing starts, convert the start to Eastern,
keep a candidate exactly when its Eastern calendar date equals the target's
and the minute distance is at most 30, pairing it with that distance. -/
def matchingBookings (bookings : List Booking) (target : Dt) : List (Booking × Nat) :=
  bookings.filterMap (fun b =>
    if asciiLower b.status = "cancelled" then none
    else
      match b.start with
      | none => none
      | some u =>
        let e := utcToEasternDt u
        if dateOf e = dateOf target ∧ deltaMinutes e target ≤ 30 then
          some (b, deltaMinutes e target)
        else none)

/-- Stable insertion by the distance component, modelling Python's
guaranteed-stable `list.sort(key=lambda x: x[1])`. -/
def insertByDiff (x : Booking × Nat) : List (Booking × Nat) → List (Booking × Nat)
  | [] => [x]
  | y :: ys => if x.2 ≤ y.2 then x :: y :: ys else y :: insertByDiff x ys

/-- Stable sort by the distance component. -/
def sortByDiff : List (Booking × Nat) → List (Booking × Nat)
  | [] => []
  | x :: xs => insertByDiff x (sortByDiff xs)

/-- Resolution step of both tools:
`matching_bookings.sort(key=lambda x: x[1]); matching_bookings[0]` —
`none` models the `if not matching_bookings` no-match outcome. -/
def resolveByTime (bookings : List Booking) (target : Dt) : Option (Booking × Nat) :=
  (sortByDiff (matchingBookings bookings target)).head?

/-- Reference form of the selection: earliest element of minimal distance. -/
def pickFirstMin : List (Booking × Nat) → Option (Booking × Nat)
  | [] => none
  | x :: xs =>
    match pickFirstMin xs with
    | none => some x
    | some y => if x.2 ≤ y.2 then some x else some y

theorem sortByDiff_head (l : List (Booking × Nat)) :
    (sortByDiff l).head? = pickFirstMin l := by
  induction l with
  | nil => rfl
  | cons x xs ih =>
    show (insertByDiff x (sortByDiff xs)).head? = pickFirstMin (x :: xs)
    cases hs : sortByDiff xs with
    | nil =>
      rw [hs] at ih
      show (insertByDiff x []).head? = pickFirstMin (x :: xs)
      unfold pickFirstMin
      rw [← ih]
      rfl
    | cons z zs =>
      rw [hs] at ih
      simp only [List.head?] at ih
      show (insertByDiff x (z :: zs)).head? = pickFirstMin (x :: xs)
      unfold pickFirstMin
      rw [← ih]
      show (if x.2 ≤ z.2 then x :: z :: zs else z :: insertByDiff x zs).head?
          = if x.2 ≤ z.2 then some x else some z
      split_ifs <;> rfl

theorem pickFirstMin_none (l : List (Booking × Nat)) :
    pickFirstMin l = none ↔ l = [] := by
  induction l with
  | nil => simp [pickFirstMin]
  | cons x xs ih =>
    unfold pickFirstMin
    constructor
    · intro h
      exfalso
      cases hpx : pickFirstMin xs with
      | none => rw [hpx] at h; exact Option.noConfusion h
      | some y =>
        rw [hpx] at h
        dsimp only at h
        split_ifs at h
    · intro h
      exact List.noConfusion h

theorem pickFirstMin_mem (l : List (Booking × Nat)) :
    ∀ p, pickFirstMin l = some p → p ∈ l := by
  induction l with
  | nil => exact fun p h => Option.noConfusion h
  | cons x xs ih =>
    intro p h
    unfold pickFirstMin at h
    cases hpx : pickFirstMin xs with
    | none =>
      rw [hpx] at h
      injection h with h
      exact h ▸ List.mem_cons_self x xs
    | some y =>
      rw [hpx] at h
      dsimp only at h
      split_ifs at h
      · injection h with h
        exact h ▸ List.mem_cons_self x xs
      · injection h with h
        exact List.mem_cons_of_mem x (ih p (h ▸ hpx))

theorem pickFirstMin_min (l : List (Booking × Nat)) :
    ∀ p, pickFirstMin l = some p → ∀ q ∈ l, p.2 ≤ q.2 := by
  induction l with
  | nil => exact fun p h => Option.noConfusion h
  | cons x xs ih =>
    intro p h
    unfold pickFirstMin at h
    cases hpx : pickFirstMin xs with
    | none =>
      rw [hpx] at h
      injection h with h
      subst h
      intro q hq
      rcases List.mem_cons.mp hq with rfl | hq
      · exact le_refl _
      · rw [(pickFirstMin_none xs).mp hpx] at hq
        exact absurd hq (List.not_mem_nil q)
    | some y =>
      rw [hpx] at h
      dsimp only at h
      split_ifs at h with hle
      · injection h with h
        subst h
        intro q hq
        rcases List.mem_cons.mp hq with rfl | hq
        · exact le_refl _
        · exact le_trans hle (ih y hpx q hq)
      · injection h with h
        subst h
        intro q hq
        rcases List.mem_cons.mp hq with rfl | hq
        · omega
        · exact ih y hpx q hq

theorem pickFirstMin_split (l : List (Booking × Nat)) :
    ∀ p, pickFirstMin l = some p →
    ∃ l1 l2, l = l1 ++ p :: l2 ∧ (∀ q ∈ l1, p.2 < q.2) ∧ (∀ q ∈ l2, p.2 ≤ q.2) := by
  induction l with
  | nil => exact fun p h => Option.noConfusion h
  | cons x xs ih =>
    intro p h
    unfold pickFirstMin at h
    cases hpx : pickFirstMin xs with
    | none =>
      rw [hpx] at h
      injection h with h
      subst h
      refine ⟨[], xs, rfl, by simp, ?_⟩
      rw [(pickFirstMin_none xs).mp hpx]
      simp
    | some y =>
      rw [hpx] at h
      dsimp only at h
      split_ifs at h with hle
      · injection h with h
        subst h
        exact ⟨[], xs, rfl, by simp,
          fun q hq => le_trans hle (pickFirstMin_min xs y hpx q hq)⟩
      · injection h with h
        subst h
        obtain ⟨l1, l2, hsplit, hlt, hle2⟩ := ih y hpx
        refine ⟨x :: l1, l2, by rw [hsplit]; rfl, ?_, hle2⟩
        intro q hq
        rcases List.mem_cons.mp hq with rfl | hq
        · omega
        · exact hlt q hq

/-- Email fallback chain of the tools (`if not filter_email:` steps): first
non-empty entry wins; Python treats `None` and the empty string alike, so
absent sources are encoded as `""`. -/
def firstTruthy : List String → String
  | [] => ""
  | x :: r => if x = "" then firstTruthy r else x

/-- One line of `get_all_bookings` output (lines 39-58): event-type title
override when present and non-empty, Eastern-rendered start (the inner
try/except fallback is unreachable because the conversion is total), first
attendee name or "Unknown".  The `title` and `attendeeName` fields model the
dictionary lookups with their defaults already applied. -/
def describeBooking (b : Booking) : String :=
  let title := match b.eventTypeTitle with
    | some t => if t = "" then b.title else t
    | none => b.title
  let startEastern := match b.start with
    | some u => format_eastern_time (utcToEasternDt u)
    | none => "Unknown time"
  title ++ " on " ++ startEastern ++ " with " ++ b.attendeeName.getD "Unknown"

/-- Environment of one `get_all_bookings` call: arguments, email sources, the
formatted current time, and the scheduling client's response (`error` models
a raised exception inside `calcom_client.get_all_bookings`). -/
structure GetAllEnv where
  emailArg : Option String
  emailState : String
  agentEmail : Option String
  defaultEmail : String
  currentTime : String
  listBookings : Except PyErr (List Booking)

/-- Body of `get_all_bookings` (calcom_tools.py lines 16-60) before the outer
exception handler: client errors propagate. -/
def get_all_bookings_body (env : GetAllEnv) : Except PyErr String :=
  let filterEmail := firstTruthy
    [env.emailArg.getD "", env.emailState, env.agentEmail.getD "", env.defaultEmail]
  if filterEmail = "" then
    .ok "Error: No email address provided. Please set your email in settings or provide it when asking about appointments."
  else
    match env.listBookings with
    | .error e => .error e
    | .ok bookings =>
      if bookings.isEmpty then
        .ok ("Retrieved bookings at " ++ env.currentTime ++ ". No bookings found for email "
          ++ filterEmail ++ ".")
      else
        .ok ("Retrieved bookings at " ++ env.currentTime ++ ". Found "
          ++ toString bookings.length ++ " booking(s) for " ++ filterEmail ++ ": "
          ++ String.intercalate "; " (bookings.map describeBooking))

/-- Deployed `get_all_bookings`: the body wrapped in `except Exception`
(lines 61-62), which renders every raise as an outcome string. -/
def get_all_bookings (env : GetAllEnv) : Except PyErr String :=
  match get_all_bookings_body env with
  | .ok s => .ok s
  | .error e => .ok ("Error retrieving bookings: " ++ e.msg)

/-- Environment of one `get_booking` call. -/
structure GetBookingEnv where
  bookingUid : String
  currentTime : String
  getBooking : Except PyErr Booking

/-- Body of `get_booking` (lines 65-83) before the outer handler. -/
def get_booking_body (env : GetBookingEnv) : Except PyErr String :=
  match env.getBooking with
  | .error e => .error e
  | .ok b =>
    let startEastern := match b.start with
      | some u => format_eastern_time (utcToEasternDt u)
      | none => "Unknown time"
    .ok ("Retrieved booking details at " ++ env.currentTime ++ ". " ++ b.title ++ " - "
      ++ startEastern ++ " (Status: " ++ b.status ++ ")")

/-- Deployed `get_booking` with its 404 classification (lines 84-88). -/
def get_booking (env : GetBookingEnv) : Except PyErr String :=
  match get_booking_body env with
  | .ok s => .ok s
  | .error e =>
    if strContainsSub e.msg "404" || strContainsSub (asciiLower e.msg) "not found" then
      .ok ("Error retrieving booking - booking not found. Please check the booking UID: "
        ++ env.bookingUid)
    else .ok ("Error retrieving booking: " ++ e.msg)

/-- Environment of one meeting-creation call (`create_connect_meeting` and
`create_discover_meeting` share this shape; the conversation-history note
extraction is wrapped in its own try/except in the source and cannot raise
out, so it is not part of the fallible environment). -/
structure CreateEnv where
  startTimeEastern : String
  attendeeEmail : Option String
  defaultEmail : String
  currentTime : String
  strptime : String → String → Option Dt
  createBooking : Except PyErr Booking

/-- Shared body of the two creation tools (lines 91-158 and 168-235):
email default, Eastern→UTC conversion (may raise ValueError), client call
(may raise), confirmation rendering. -/
def create_meeting_body (env : CreateEnv) : Except PyErr String :=
  let email := match env.attendeeEmail with
    | some e => if e = "" then env.defaultEmail else e
    | none => env.defaultEmail
  if email = "" then
    .ok "Error: No email address provided. Please provide an email address for the attendee."
  else
    match convert_to_utc_iso env.strptime env.startTimeEastern with
    | .error e => .error e
    | .ok startTimeUtc =>
      match env.createBooking with
      | .error e => .error e
      | .ok result =>
        let bookingStartEastern := match result.start with
          | some u => format_eastern_time (utcToEasternDt u)
          | none => convert_utc_to_eastern fromisoformat startTimeUtc
        .ok ("Meeting created successfully for " ++ bookingStartEastern
          ++ ". Booking UID: " ++ result.uid)

/-- Deployed creation tool: `except ValueError` then the generic handler with
its 400 classification (lines 159-165 / 236-242); `kind` is the meeting kind
used in the outcome strings. -/
def create_meeting_tool (kind : String) (env : CreateEnv) : Except PyErr String :=
  match create_meeting_body env with
  | .ok s => .ok (kind ++ " meeting scheduled at " ++ env.currentTime ++ ". " ++ s)
  | .error e =>
    if e.isValueError then
      .ok ("Error creating " ++ kind ++ " meeting - invalid time format: " ++ e.msg
        ++ ". Please provide time in Eastern Time format.")
    else if strContainsSub e.msg "400" || strContainsSub (asciiLower e.msg) "bad request" then
      .ok ("Error creating " ++ kind
        ++ " meeting - bad request. Please check: 1) Time format is correct (Eastern Time), 2) Date is in the future, 3) Email is valid. Details: "
        ++ e.msg)
    else .ok ("Error creating " ++ kind ++ " meeting: " ++ e.msg)

/-- Embedding of `create_connect_meeting`. -/
def create_connect_meeting (env : CreateEnv) : Except PyErr String :=
  create_meeting_tool "Connect" env

/-- Embedding of `create_discover_meeting`. -/
def create_discover_meeting (env : CreateEnv) : Except PyErr String :=
  create_meeting_tool "Discover" env

/-- Environment of one `reschedule_booking` call. -/
structure RescheduleEnv where
  bookingUid : Option String
  oldDateTimeEastern : Option String
  newStartTimeEastern : String
  emailState : String
  agentEmail : Option String
  defaultEmail : String
  currentTime : String
  strptime : String → String → Option Dt
  listBookings : Except PyErr (List Booking)
  rescheduleResult : String → Except PyErr Booking

/-- Tail of `reschedule_booking` once the target uid is known (lines
326-338): convert the new time (may raise ValueError outside any inner
try), call the client, render the new booking. -/
def reschedule_tail (env : RescheduleEnv) (uid : String) : Except PyErr String :=
  match convert_to_utc_iso env.strptime env.newStartTimeEastern with
  | .error e => .error e
  | .ok newStartTimeUtc =>
    match env.rescheduleResult uid with
    | .error e => .error e
    | .ok result =>
      let newUid := if result.uid = "" then uid else result.uid
      let newStartEastern := match result.start with
        | some u => format_eastern_time (utcToEasternDt u)
        | none => convert_utc_to_eastern fromisoformat newStartTimeUtc
      .ok ("Booking rescheduled at " ++ env.currentTime ++ ". New booking created: "
        ++ newStartEastern ++ " (UID: " ++ newUid ++ "). The original booking has been cancelled.")

/-- Body of `reschedule_booking` (lines 245-338) before the outer handlers:
required-argument check, uid-or-search resolution (the search block is lines
255-321, with the same matching loop as `cancel_booking`), then the tail. -/
def reschedule_booking_body (env : RescheduleEnv) : Except PyErr String :=
  if env.newStartTimeEastern = "" then
    .ok "Error: new_start_time_eastern is required. Please provide the new date and time for the rescheduled booking."
  else
    let givenUid := env.bookingUid.getD ""
    if givenUid ≠ "" then reschedule_tail env givenUid
    else if env.oldDateTimeEastern.getD "" = "" then
      .ok "Error: Please provide either booking_uid or old_date_time_eastern to reschedule a booking."
    else
      let dts := env.oldDateTimeEastern.getD ""
      let filterEmail := firstTruthy [env.emailState, env.agentEmail.getD "", env.defaultEmail]
      if filterEmail = "" then
        .ok "Error: No email address provided. Cannot search for booking without email."
      else
        match env.listBookings with
        | .error e => .error e
        | .ok bookings =>
          match parseEasternToUtcDt env.strptime dts with
          | .error e =>
            .ok ("Error parsing old date/time '" ++ dts ++ "': " ++ e.msg
              ++ ". Please provide time in Eastern Time format.")
          | .ok targetUtc =>
            match resolveByTime bookings (utcToEasternDt targetUtc) with
            | none =>
              .ok ("No upcoming booking found for " ++ dts
                ++ " Eastern Time. Please check the date and time, or provide the booking UID directly.")
            | some (b, _) =>
              if b.uid = "" then
                .ok ("Found booking for " ++ dts
                  ++ " but could not get booking UID. Please provide the booking UID directly.")
              else reschedule_tail env b.uid

/-- Deployed `reschedule_booking`: `except ValueError` then the generic
handler with its 400 classification (lines 339-345). -/
def reschedule_booking (env : RescheduleEnv) : Except PyErr String :=
  match reschedule_booking_body env with
  | .ok s => .ok s
  | .error e =>
    if e.isValueError then
      .ok ("Error rescheduling booking - invalid time format: " ++ e.msg
        ++ ". Please provide time in Eastern Time format.")
    else if strContainsSub e.msg "400" || strContainsSub (asciiLower e.msg) "bad request" then
      .ok ("Error rescheduling booking - bad request. Please check: 1) Time format is correct (Eastern Time), 2) Date is in the future, 3) Booking UID is valid. Details: "
        ++ e.msg)
    else .ok ("Error rescheduling booking: " ++ e.msg)

/-- Cancellation response dictionary fields read by `cancel_booking`. -/
structure CancelResponse where
  status : String
  title : String
  start : Option Dt
  cancellationReason : Option String
deriving DecidableEq, Repr

/-- Environment of one `cancel_booking` call. -/
structure CancelEnv where
  bookingUid : Option String
  dateTimeEastern : Option String
  emailState : String
  agentEmail : Option String
  defaultEmail : String
  currentTime : String
  strptime : String → String → Option Dt
  listBookings : Except PyErr (List Booking)
  getBooking : String → Except PyErr Booking
  cancelBooking : String → Except PyErr CancelResponse

/-- Tail of `cancel_booking` once the target uid is known (lines 434-468):
fetch the booking (`except: pass` on failure), return the idempotent outcome
when it is already cancelled, otherwise issue the mutating cancel call and
render the result.  The boolean in the result and in the error payload
records whether the mutating client call was issued. -/
def cancel_tail (env : CancelEnv) (uid : String) : Except (PyErr × Bool) (String × Bool) :=
  let alreadyCancelled := match env.getBooking uid with
    | .ok b => asciiLower b.status == "cancelled"
    | .error _ => false
  if alreadyCancelled then
    .ok ("This booking is already cancelled. No action needed.", false)
  else
    match env.cancelBooking uid with
    | .error e => .error (e, true)
    | .ok result =>
      if asciiLower result.status = "cancelled" then
        let startEastern := match result.start with
          | some u => format_eastern_time (utcToEasternDt u)
          | none => "Unknown time"
        let reasonText := match result.cancellationReason with
          | some r => if r = "" then "" else " Reason: " ++ r
          | none => ""
        .ok ("Booking cancelled successfully at " ++ env.currentTime ++ ". " ++ result.title
          ++ " on " ++ startEastern ++ " has been cancelled." ++ reasonText, true)
      else
        .ok ("Booking cancellation processed at " ++ env.currentTime ++ ". Status: "
          ++ result.status ++ ". Please verify the cancellation was successful.", true)

/-- Body of `cancel_booking` (lines 348-468) before the outer handler:
uid-or-search resolution (search block lines 355-429) then the tail. -/
def cancel_booking_body (env : CancelEnv) : Except (PyErr × Bool) (String × Bool) :=
  let givenUid := env.bookingUid.getD ""
  if givenUid ≠ "" then cancel_tail env givenUid
  else if env.dateTimeEastern.getD "" = "" then
    .ok ("Error: Please provide either booking_uid or date_time_eastern to cancel a booking.", false)
  else
    let dts := env.dateTimeEastern.getD ""
    let filterEmail := firstTruthy [env.emailState, env.agentEmail.getD "", env.defaultEmail]
    if filterEmail = "" then
      .ok ("Error: No email address provided. Cannot search for booking without email.", false)
    else
      match env.listBookings with
      | .error e => .error (e, false)
      | .ok bookings =>
        match parseEasternToUtcDt env.strptime dts with
        | .error e =>
          .ok ("Error parsing date/time '" ++ dts ++ "': " ++ e.msg
            ++ ". Please provide time in Eastern Time format (e.g., '2026-07-15 2:00 PM' or 'July 15, 2026 at 2:00 PM').", false)
        | .ok targetUtc =>
          match resolveByTime bookings (utcToEasternDt targetUtc) with
          | none =>
            .ok ("No upcoming booking found for " ++ dts
              ++ " Eastern Time. Please check the date and time, or provide the booking UID directly.", false)
          | some (b, _) =>
            if b.uid = "" then
              .ok ("Found booking for " ++ dts
                ++ " but could not get booking UID. Please provide the booking UID directly.", false)
            else cancel_tail env b.uid

/-- Deployed `cancel_booking`: the body wrapped in the outer handler with its
404 classification (lines 469-473). -/
def cancel_booking (env : CancelEnv) : Except (PyErr × Bool) (String × Bool) :=
  match cancel_booking_body env with
  | .ok r => .ok r
  | .error (e, mutated) =>
    if strContainsSub e.msg "404" || strContainsSub (asciiLower e.msg) "not found" then
      .ok ("Error canceling booking - booking not found. Please check the booking UID or date/time provided.", mutated)
    else .ok ("Error canceling booking: " ++ e.msg, mutated)

theorem findSome?_split {α β : Type} (f : α → Option β) (l : List α) :
    (∃ l1 x l2 b, l = l1 ++ x :: l2 ∧ (∀ a ∈ l1, f a = none) ∧ f x = some b
      ∧ l.findSome? f = some b)
    ∨ ((∀ a ∈ l, f a = none) ∧ l.findSome? f = none) := by
  induction l with
  | nil => right; exact ⟨by simp, rfl⟩
  | cons x xs ih =>
    have hcons : (x :: xs).findSome? f
        = match f x with | some b => some b | none => xs.findSome? f := rfl
    cases hfx : f x with
    | some b =>
      left
      refine ⟨[], x, xs, b, rfl, by simp, hfx, ?_⟩
      rw [hcons, hfx]
    | none =>
      rcases ih with ⟨l1, z, l2, b, hsplit, hnone, hz, hfind⟩ | ⟨hall, hfind⟩
      · left
        refine ⟨x :: l1, z, l2, b, by rw [hsplit]; rfl, ?_, hz, ?_⟩
        · intro a ha
          rcases List.mem_cons.mp ha with rfl | ha
          · exact hfx
          · exact hnone a ha
        · rw [hcons, hfx]
          exact hfind
      · right
        refine ⟨?_, ?_⟩
        · intro a ha
          rcases List.mem_cons.mp ha with rfl | ha
          · exact hfx
          · exact hall a ha
        · rw [hcons, hfx]
          exact hfind

/-- C7: `convert_to_utc_iso`'s parsing stage tries the accepted formats in
their fixed source order and uses the first that succeeds; when none
matches it fails with a ValueError whose message names the offending input
string; for every input exactly one of these two outcomes occurs. -/
theorem C7_parse_first_success (strptime : String → String → Option Dt) (s : String) :
    (∃ l1 fmt l2 dt, acceptedFormats = l1 ++ fmt :: l2
      ∧ (∀ f ∈ l1, strptime f (pyStrip s) = none)
      ∧ strptime fmt (pyStrip s) = some dt
      ∧ convert_to_utc_iso strptime s = .ok (strftimeIsoZ (easternToUtcDt dt)))
    ∨ ((∀ f ∈ acceptedFormats, strptime f (pyStrip s) = none)
      ∧ convert_to_utc_iso strptime s
          = .error ⟨"Could not parse time string: " ++ s, true⟩) := by
  rcases findSome?_split (fun fmt => strptime fmt (pyStrip s)) acceptedFormats with
    ⟨l1, fmt, l2, dt, hsplit, hnone, hfmt, hfind⟩ | ⟨hall, hfind⟩
  · left
    refine ⟨l1, fmt, l2, dt, hsplit, hnone, hfmt, ?_⟩
    unfold convert_to_utc_iso firstParse
    rw [hfind]
  · right
    refine ⟨hall, ?_⟩
    unfold convert_to_utc_iso firstParse
    rw [hfind]

/-- C1 counterexample: the Eastern local time 2026-03-08 02:30:00 (a valid
datetime value lying in the spring-forward gap: DST starts 2026-03-08 02:00
Eastern) does not round-trip: converting to UTC and back yields 03:30:00. -/
theorem C1_counterexample :
    validDt ⟨2026, 3, 8, 2, 30, 0⟩
    ∧ utcToEasternDt (easternToUtcDt ⟨2026, 3, 8, 2, 30, 0⟩) ≠ ⟨2026, 3, 8, 2, 30, 0⟩
    ∧ utcToEasternDt (easternToUtcDt ⟨2026, 3, 8, 2, 30, 0⟩) = ⟨2026, 3, 8, 3, 30, 0⟩ := by
  exact ⟨by decide, by decide, by decide⟩

/-- C1 (amended): for every valid Eastern local datetime with second
precision in the modelled rule era (year ≥ 2007) that is not in the
spring-forward gap (the nonexistent local hour [2:00, 3:00) on the second
Sunday of March), converting to UTC and back to Eastern yields the same
datetime value. -/
theorem C1_roundtrip_amended (t : Dt) (h : validDt t) (_h2007 : 2007 ≤ t.year)
    (hg : ¬ springGap t) : utcToEasternDt (easternToUtcDt t) = t :=
  eastern_roundtrip t h hg

theorem C1_roundtrip_witness :
    utcToEasternDt (easternToUtcDt ⟨2026, 7, 15, 14, 0, 0⟩) = ⟨2026, 7, 15, 14, 0, 0⟩ :=
  C1_roundtrip_amended ⟨2026, 7, 15, 14, 0, 0⟩ (by decide) (by decide) (by decide)

/-- C10 counterexample: `convert_utc_to_eastern` on the unparsable input
"XZ" returns "X+00:00" — the variable reassigned by the Z-preprocessing —
not the original input string. -/
theorem C10_counterexample :
    convert_utc_to_eastern fromisoformat "XZ" = "X+00:00" ∧ "X+00:00" ≠ "XZ" :=
  ⟨by decide, by decide⟩

/-- C10 (amended): `convert_utc_to_eastern` is total by construction — for
every parser behavior and every input it returns a string — and on parse
failure it returns the preprocessed input (the original string with the
trailing Z or missing offset rewritten), which equals the caller's original
string exactly when neither preprocessing branch applied. -/
theorem C10_fallback (fromiso : String → Option Dt) (s : String)
    (hfail : fromiso (replaceZ (preprocessUtc s)) = none) :
    convert_utc_to_eastern fromiso s = preprocessUtc s
    ∧ (strEndsWith s "Z" = false
        → ¬ (strContainsChar s '+' = false ∧ 3 ≤ strCountChar s '-')
        → convert_utc_to_eastern fromiso s = s) := by
  have hbase : convert_utc_to_eastern fromiso s = preprocessUtc s := by
    show (match fromiso (replaceZ (preprocessUtc s)) with
      | some u => format_eastern_time (utcToEasternDt u)
      | none => preprocessUtc s) = preprocessUtc s
    rw [hfail]
  refine ⟨hbase, fun hz hplus => ?_⟩
  rw [hbase]
  unfold preprocessUtc
  rw [if_neg (by rw [hz]; exact Bool.false_ne_true), if_neg hplus]

theorem C10_fallback_witness :
    convert_utc_to_eastern fromisoformat "XZ" = preprocessUtc "XZ"
    ∧ convert_utc_to_eastern fromisoformat "Zebra" = "Zebra" := by
  refine ⟨(C10_fallback fromisoformat "XZ" (by decide)).1, ?_⟩
  exact (C10_fallback fromisoformat "Zebra" (by decide)).2 (by decide) (by decide)

/-- C6: converting an Eastern local datetime on January 15 to UTC adds
exactly 5 hours (EST) and on July 15 exactly 4 hours (EDT), for every year
of the modelled rule era; the emitted instant is the canonical UTC string
`YYYY-MM-DDTHH:MM:SSZ`, witnessed on noon of both dates in 2026. -/
theorem C6_dst_offsets (t : Dt) (h : validDt t) :
    (t.month = 1 ∧ t.day = 15 → easternToUtcDt t = addHours t 5)
    ∧ (t.month = 7 ∧ t.day = 15 → easternToUtcDt t = addHours t 4)
    ∧ strftimeIsoZ (easternToUtcDt ⟨2026, 1, 15, 12, 0, 0⟩) = "2026-01-15T17:00:00Z"
    ∧ strftimeIsoZ (easternToUtcDt ⟨2026, 7, 15, 12, 0, 0⟩) = "2026-07-15T16:00:00Z" := by
  have hy := h.1
  have hsfl := springForwardLocal_eq t.year hy
  have hfbl := fallBackLocal_eq t.year hy
  have hssb := ssMarch_bounds t.year
  have hfsb := fsNov_bounds t.year
  have hL := leapN_cases t.year
  have hlin := secsOf_linear t h
  have hhh := h.2.2.2.2.2
  refine ⟨?_, ?_, by decide, by decide⟩
  · rintro ⟨hm, hd⟩
    rw [hm, hd] at hlin
    have hdoy : dayOfYear t.year 1 15 = 14 := rfl
    unfold easternToUtcDt
    rw [if_neg (show ¬ easternIsDstLocal t by unfold easternIsDstLocal; omega)]
  · rintro ⟨hm, hd⟩
    rw [hm, hd] at hlin
    have hdoy : dayOfYear t.year 7 15 = 181 + leapN t.year + 14 := rfl
    unfold easternToUtcDt
    rw [if_pos (show easternIsDstLocal t by unfold easternIsDstLocal; omega)]

theorem C6_dst_offsets_witness :
    easternToUtcDt ⟨2026, 1, 15, 12, 0, 0⟩ = addHours ⟨2026, 1, 15, 12, 0, 0⟩ 5
    ∧ easternToUtcDt ⟨2026, 7, 15, 12, 0, 0⟩ = addHours ⟨2026, 7, 15, 12, 0, 0⟩ 4 :=
  ⟨(C6_dst_offsets ⟨2026, 1, 15, 12, 0, 0⟩ (by decide)).1 ⟨rfl, rfl⟩,
   (C6_dst_offsets ⟨2026, 7, 15, 12, 0, 0⟩ (by decide)).2.1 ⟨rfl, rfl⟩⟩

/-- C2: in the date/time-based resolution of `cancel_booking` and
`reschedule_booking`, a non-cancelled candidate with a parsed start whose
Eastern calendar date equals the query's date is kept exactly when its
minute distance to the query is at most 30 — so 30 minutes is included and
31 minutes excluded. -/
theorem C2_match_window (bookings : List Booking) (target : Dt) (b : Booking) (u : Dt)
    (hmem : b ∈ bookings) (hstatus : asciiLower b.status ≠ "cancelled")
    (hstart : b.start = some u)
    (hdate : dateOf (utcToEasternDt u) = dateOf target) :
    ((b, deltaMinutes (utcToEasternDt u) target) ∈ matchingBookings bookings target
      ↔ deltaMinutes (utcToEasternDt u) target ≤ 30) := by
  unfold matchingBookings
  rw [List.mem_filterMap]
  constructor
  · rintro ⟨a, ha, hfa⟩
    by_cases hc : asciiLower a.status = "cancelled"
    · rw [if_pos hc] at hfa
      exact Option.noConfusion hfa
    · rw [if_neg hc] at hfa
      cases hsa : a.start with
      | none =>
        rw [hsa] at hfa
        exact Option.noConfusion hfa
      | some ua =>
        rw [hsa] at hfa
        dsimp only at hfa
        split_ifs at hfa with hcond
        · injection hfa with hfa
          have hab : a = b := congrArg Prod.fst hfa
          subst hab
          have huu : ua = u := by
            rw [hstart] at hsa
            exact (Option.some.injEq _ _).mp hsa.symm
          subst huu
          exact hcond.2
  · intro hle
    refine ⟨b, hmem, ?_⟩
    rw [if_neg hstatus, hstart]
    dsimp only
    rw [if_pos ⟨hdate, hle⟩]

theorem C2_match_window_witness :
    letI bIn : Booking :=
      ⟨"uid-a", "accepted", some ⟨2026, 7, 15, 18, 30, 0⟩, "Connect", none, none⟩
    letI bOut : Booking :=
      ⟨"uid-b", "accepted", some ⟨2026, 7, 15, 18, 31, 0⟩, "Connect", none, none⟩
    letI target : Dt := ⟨2026, 7, 15, 14, 0, 0⟩
    ((bIn, 30) ∈ matchingBookings [bIn, bOut] target
      ∧ matchingBookings [bIn, bOut] target = [(bIn, 30)]) := by
  constructor
  · have h := (C2_match_window
      [⟨"uid-a", "accepted", some ⟨2026, 7, 15, 18, 30, 0⟩, "Connect", none, none⟩,
       ⟨"uid-b", "accepted", some ⟨2026, 7, 15, 18, 31, 0⟩, "Connect", none, none⟩]
      ⟨2026, 7, 15, 14, 0, 0⟩
      ⟨"uid-a", "accepted", some ⟨2026, 7, 15, 18, 30, 0⟩, "Connect", none, none⟩
      ⟨2026, 7, 15, 18, 30, 0⟩
      (by decide) (by decide) rfl (by decide)).mpr (by decide)
    exact h
  · decide

theorem matchingBookings_shape (bookings : List Booking) (target : Dt) (b : Booking) (d : Nat)
    (h : (b, d) ∈ matchingBookings bookings target) :
    b ∈ bookings ∧ asciiLower b.status ≠ "cancelled"
    ∧ ∃ u, b.start = some u ∧ dateOf (utcToEasternDt u) = dateOf target
      ∧ deltaMinutes (utcToEasternDt u) target ≤ 30
      ∧ d = deltaMinutes (utcToEasternDt u) target := by
  unfold matchingBookings at h
  rw [List.mem_filterMap] at h
  obtain ⟨a, ha, hfa⟩ := h
  by_cases hc : asciiLower a.status = "cancelled"
  · rw [if_pos hc] at hfa
    exact Option.noConfusion hfa
  · rw [if_neg hc] at hfa
    cases hsa : a.start with
    | none =>
      rw [hsa] at hfa
      exact Option.noConfusion hfa
    | some ua =>
      rw [hsa] at hfa
      dsimp only at hfa
      split_ifs at hfa with hcond
      injection hfa with hfa
      have hab : a = b := congrArg Prod.fst hfa
      have hd : d = deltaMinutes (utcToEasternDt ua) target :=
        (congrArg Prod.snd hfa).symm
      subst hab
      exact ⟨ha, hc, ua, hsa, hcond.1, hcond.2, hd⟩

/-- C3: a candidate whose Eastern calendar date differs from the query's is
never kept and never selected, regardless of its minute distance; every kept
or selected candidate has exactly the query's calendar date. -/
theorem C3_date_exactness (bookings : List Booking) (target : Dt) :
    (∀ b d, (b, d) ∈ matchingBookings bookings target →
      ∃ u, b.start = some u ∧ dateOf (utcToEasternDt u) = dateOf target)
    ∧ (∀ b d, resolveByTime bookings target = some (b, d) →
      ∃ u, b.start = some u ∧ dateOf (utcToEasternDt u) = dateOf target) := by
  have hkept : ∀ b d, (b, d) ∈ matchingBookings bookings target →
      ∃ u, b.start = some u ∧ dateOf (utcToEasternDt u) = dateOf target := by
    intro b d h
    obtain ⟨_, _, u, h1, h2, _, _⟩ := matchingBookings_shape bookings target b d h
    exact ⟨u, h1, h2⟩
  refine ⟨hkept, fun b d hres => hkept b d ?_⟩
  apply pickFirstMin_mem
  rw [← sortByDiff_head]
  exact hres

theorem C3_date_exactness_witness :
    letI bWrongDate : Booking :=
      ⟨"uid-b", "accepted", some ⟨2026, 7, 16, 18, 0, 0⟩, "Connect", none, none⟩
    letI target : Dt := ⟨2026, 7, 15, 14, 0, 0⟩
    (resolveByTime [bWrongDate] target = none
      ∧ ∃ u, (⟨"uid-a", "accepted", some ⟨2026, 7, 15, 18, 0, 0⟩, "Connect",
          none, none⟩ : Booking).start = some u
        ∧ dateOf (utcToEasternDt u) = dateOf target) := by
  refine ⟨by decide, ?_⟩
  exact (C3_date_exactness
    [⟨"uid-a", "accepted", some ⟨2026, 7, 15, 18, 0, 0⟩, "Connect", none, none⟩]
    ⟨2026, 7, 15, 14, 0, 0⟩).2
    ⟨"uid-a", "accepted", some ⟨2026, 7, 15, 18, 0, 0⟩, "Connect", none, none⟩ 0
    (by decide)

/-- C4: the resolution selects the kept candidate with the smallest minute
distance, and among equal distances the one earliest in the input sequence:
the matching list splits around the selected pair with strictly larger
distances before it and no smaller distance after it.  The selection is a
pure function of the inputs, hence deterministic. -/
theorem C4_earliest_minimum (bookings : List Booking) (target : Dt) (b : Booking) (d : Nat)
    (h : resolveByTime bookings target = some (b, d)) :
    ∃ l1 l2, matchingBookings bookings target = l1 ++ (b, d) :: l2
      ∧ (∀ q ∈ l1, d < q.2) ∧ (∀ q ∈ l2, d ≤ q.2) := by
  apply pickFirstMin_split
  rw [← sortByDiff_head]
  exact h

theorem C4_earliest_minimum_witness :
    letI b1 : Booking :=
      ⟨"uid-1", "accepted", some ⟨2026, 7, 15, 18, 30, 0⟩, "Connect", none, none⟩
    letI b2 : Booking :=
      ⟨"uid-2", "accepted", some ⟨2026, 7, 15, 17, 30, 0⟩, "Connect", none, none⟩
    letI target : Dt := ⟨2026, 7, 15, 14, 0, 0⟩
    (resolveByTime [b1, b2] target = some (b1, 30)
      ∧ ∃ l1 l2, matchingBookings [b1, b2] target = l1 ++ (b1, 30) :: l2
        ∧ (∀ q ∈ l1, 30 < q.2) ∧ (∀ q ∈ l2, 30 ≤ q.2)) := by
  refine ⟨by decide, ?_⟩
  exact C4_earliest_minimum
    [⟨"uid-1", "accepted", some ⟨2026, 7, 15, 18, 30, 0⟩, "Connect", none, none⟩,
     ⟨"uid-2", "accepted", some ⟨2026, 7, 15, 17, 30, 0⟩, "Connect", none, none⟩]
    ⟨2026, 7, 15, 14, 0, 0⟩
    ⟨"uid-1", "accepted", some ⟨2026, 7, 15, 18, 30, 0⟩, "Connect", none, none⟩ 30
    (by decide)

/-- C5: a booking whose status lower-cases to "cancelled" is discarded
before any date or distance comparison: it never appears in the matching
list and is never the resolved target, however close its time is. -/
theorem C5_cancelled_never_matched (bookings : List Booking) (target : Dt) (b : Booking)
    (hc : asciiLower b.status = "cancelled") :
    (∀ d, (b, d) ∉ matchingBookings bookings target)
    ∧ (∀ d, resolveByTime bookings target ≠ some (b, d)) := by
  have hnot : ∀ d, (b, d) ∉ matchingBookings bookings target := by
    intro d hmem
    obtain ⟨_, hst, _⟩ := matchingBookings_shape bookings target b d hmem
    exact hst hc
  refine ⟨hnot, fun d hres => hnot d ?_⟩
  apply pickFirstMin_mem
  rw [← sortByDiff_head]
  exact hres

theorem C5_cancelled_never_matched_witness :
    letI bCan : Booking :=
      ⟨"uid-c", "cancelled", some ⟨2026, 7, 15, 18, 0, 0⟩, "Connect", none, none⟩
    letI bOk : Booking :=
      ⟨"uid-o", "accepted", some ⟨2026, 7, 15, 18, 30, 0⟩, "Connect", none, none⟩
    letI target : Dt := ⟨2026, 7, 15, 14, 0, 0⟩
    (resolveByTime [bCan, bOk] target = some (bOk, 30)
      ∧ ∀ d, resolveByTime [bCan, bOk] target ≠ some (bCan, d)) := by
  refine ⟨by decide, ?_⟩
  exact (C5_cancelled_never_matched
    [⟨"uid-c", "cancelled", some ⟨2026, 7, 15, 18, 0, 0⟩, "Connect", none, none⟩,
     ⟨"uid-o", "accepted", some ⟨2026, 7, 15, 18, 30, 0⟩, "Connect", none, none⟩]
    ⟨2026, 7, 15, 14, 0, 0⟩
    ⟨"uid-c", "cancelled", some ⟨2026, 7, 15, 18, 0, 0⟩, "Connect", none, none⟩
    (by decide)).2

/-- C8: when the target of `cancel_booking` is fetched with status already
"cancelled", the tool returns the idempotent already-cancelled outcome and
the mutating client cancel call is not issued (the Boolean component of the
embedding records whether that call happened). -/
theorem C8_idempotent_cancel (env : CancelEnv) (uid : String) (b : Booking)
    (hget : env.getBooking uid = .ok b) (hc : asciiLower b.status = "cancelled") :
    cancel_tail env uid = .ok ("This booking is already cancelled. No action needed.", false)
    ∧ (env.bookingUid = some uid → uid ≠ "" →
      cancel_booking env
        = .ok ("This booking is already cancelled. No action needed.", false)) := by
  have htail : cancel_tail env uid
      = .ok ("This booking is already cancelled. No action needed.", false) := by
    unfold cancel_tail
    rw [hget]
    simp [hc]
  refine ⟨htail, fun hbu hne => ?_⟩
  unfold cancel_booking cancel_booking_body
  rw [hbu]
  simp only [Option.getD]
  rw [if_pos hne, htail]

theorem C8_idempotent_cancel_witness :
    cancel_booking
      { bookingUid := some "u1", dateTimeEastern := none, emailState := "",
        agentEmail := none, defaultEmail := "", currentTime := "now",
        strptime := fun _ _ => none, listBookings := .ok [],
        getBooking := fun _ => .ok ⟨"u1", "cancelled", none, "Connect", none, none⟩,
        cancelBooking := fun _ => .ok ⟨"cancelled", "Connect", none, none⟩ }
      = .ok ("This booking is already cancelled. No action needed.", false) :=
  (C8_idempotent_cancel
    { bookingUid := some "u1", dateTimeEastern := none, emailState := "",
      agentEmail := none, defaultEmail := "", currentTime := "now",
      strptime := fun _ _ => none, listBookings := .ok [],
      getBooking := fun _ => .ok ⟨"u1", "cancelled", none, "Connect", none, none⟩,
      cancelBooking := fun _ => .ok ⟨"cancelled", "Connect", none, none⟩ }
    "u1" ⟨"u1", "cancelled", none, "Connect", none, none⟩ rfl (by decide)).2 rfl (by decide)

/-- C9: each of the six public tool operations returns an outcome string for
every environment — every error a body can raise (parse failure, no match,
failing client call) is caught by the tool's outer handlers, so no exception
propagates to the caller. -/
theorem C9_tools_never_raise :
    (∀ env : GetAllEnv, ∃ s, get_all_bookings env = .ok s)
    ∧ (∀ env : GetBookingEnv, ∃ s, get_booking env = .ok s)
    ∧ (∀ env : CreateEnv, ∃ s, create_connect_meeting env = .ok s)
    ∧ (∀ env : CreateEnv, ∃ s, create_discover_meeting env = .ok s)
    ∧ (∀ env : RescheduleEnv, ∃ s, reschedule_booking env = .ok s)
    ∧ (∀ env : CancelEnv, ∃ r, cancel_booking env = .ok r) := by
  refine ⟨?_, ?_, ?_, ?_, ?_, ?_⟩
  · intro env
    unfold get_all_bookings
    cases get_all_bookings_body env <;> exact ⟨_, rfl⟩
  · intro env
    unfold get_booking
    cases get_booking_body env with
    | ok s => exact ⟨s, rfl⟩
    | error e =>
      dsimp only
      split_ifs <;> exact ⟨_, rfl⟩
  · intro env
    unfold create_connect_meeting create_meeting_tool
    cases create_meeting_body env with
    | ok s => exact ⟨_, rfl⟩
    | error e =>
      dsimp only
      split_ifs <;> exact ⟨_, rfl⟩
  · intro env
    unfold create_discover_meeting create_meeting_tool
    cases create_meeting_body env with
    | ok s => exact ⟨_, rfl⟩
    | error e =>
      dsimp only
      split_ifs <;> exact ⟨_, rfl⟩
  · intro env
    unfold reschedule_booking
    cases reschedule_booking_body env with
    | ok s => exact ⟨s, rfl⟩
    | error e =>
      dsimp only
      split_ifs <;> exact ⟨_, rfl⟩
  · intro env
    unfold cancel_booking
    cases cancel_booking_body env with
    | ok r => exact ⟨r, rfl⟩
    | error p =>
      obtain ⟨e, m⟩ := p
      dsimp only
      split_ifs <;> exact ⟨_, rfl⟩
